import Mathlib

/-!
# Ingress Domain Resolution Engine — shallow embedding

A shallow embedding in Lean 4 of the ingress-domain resolution code of the
`jx` repository, covering:

* `GetDomain` (`pkg/cmd/opts`, lines 126–343 of the visible source):
  the resolution & fallback policy that turns a located address into a
  final domain string;
* `findFirstExternalNodeIP` (same file);
* `discoverIngressDomain`, `waitForIngressControllerHost` and
  `findDefaultIngressValues` (`pkg/cmd/step/verify/step_verify_ingress.go`).

External collaborators that are part of the repository but whose source is
not visible here (`RetryQuiet`, `RetryUntilTrueOrTimeout`, `util.Confirm`,
survey prompting, `InCluster`, the AWS / IKS cloud helpers) are modelled
from the specification; each such definition carries a doc comment saying
so.  Machine effects (API calls, shell-outs, prompts, DNS attempts, log
notices) are recorded in an explicit effect trace so that "never calls X"
claims are directly statable.
-/

/-- Errors, mirroring Go `error` values.  `notFound` corresponds to a
Kubernetes `apierrors.IsNotFound` error, `timeout` to the poll scheduler's
timeout error, `msg` to a `fmt.Errorf`, and `wrapped` to `errors.Wrap`. -/
inductive Err where
  | notFound (what : String)
  | timeout
  | msg (s : String)
  | wrapped (context : String) (e : Err)
deriving DecidableEq, Repr

/-- Ghost instrumentation: the externally observable effects performed by
the embedded functions (read-only API calls, shell-outs, interactive
prompts, DNS resolution attempts, the poll scheduler's one-time waiting
notice, and the requirements-config save). -/
inductive Effect where
  | getService (ns name : String)
  | listNodes
  | shellOut (cmd : String)
  | confirm
  | prompt
  | dnsAttempt (i : Nat)
  | registerAws (domain : String)
  | logNotice
  | saveConfig
deriving DecidableEq, Repr

/-- `cloud.MINIKUBE` from `pkg/cloud`. -/
def MINIKUBE : String := "minikube"
/-- `cloud.MINISHIFT` from `pkg/cloud`. -/
def MINISHIFT : String := "minishift"
/-- `cloud.AWS` from `pkg/cloud`. -/
def AWS : String := "aws"
/-- `cloud.EKS` from `pkg/cloud`. -/
def EKS : String := "eks"
/-- `cloud.IKS` from `pkg/cloud`. -/
def IKS : String := "iks"
/-- `cloud.GKE` from `pkg/cloud`. -/
def GKE : String := "gke"
/-- `cloud.KUBERNETES` from `pkg/cloud`. -/
def KUBERNETES : String := "kubernetes"

/-- `corev1.ServiceTypeNodePort`. -/
def ServiceTypeNodePort : String := "NodePort"
/-- `corev1.ServiceTypeLoadBalancer`. -/
def ServiceTypeLoadBalancer : String := "LoadBalancer"
/-- `corev1.NodeExternalIP`. -/
def NodeExternalIP : String := "ExternalIP"
/-- `corev1.NodeInternalIP`. -/
def NodeInternalIP : String := "InternalIP"

/-- One entry of `svc.Status.LoadBalancer.Ingress`. -/
structure LoadBalancerIngress where
  ip : String
  hostname : String
deriving DecidableEq, Repr

/-- One entry of `svc.Spec.Ports`; only the fields read by the core. -/
structure ServicePort where
  name : String
  nodePort : Nat
deriving DecidableEq, Repr

/-- A Kubernetes `corev1.Service`, restricted to the fields the core
reads: `Spec.Type`, `Spec.Ports`, `Status.LoadBalancer.Ingress` and
`Spec.ClusterIP`. -/
structure Service where
  specType : String
  ports : List ServicePort
  lbIngress : List LoadBalancerIngress
  clusterIP : String
deriving DecidableEq, Repr

/-- One entry of `node.Status.Addresses`. -/
structure NodeAddress where
  addrType : String
  address : String
deriving DecidableEq, Repr

/-- A Kubernetes `corev1.Node`, restricted to `Status.Addresses`. -/
structure Node where
  addresses : List NodeAddress
deriving DecidableEq, Repr

/-- The orchestration API client (`kubernetes.Interface`), restricted to
the two read-only calls the core makes: `GetService(ns, name)` and
`ListNodes()`. -/
structure Client where
  getService : String → String → Except Err Service
  listNodes : Except Err (List Node)

/-- The ambient environment of a `GetDomain` call: the `CommonOptions`
flags (`BatchMode`), plus the collaborators of the repository whose source
is not under `src/` and which are therefore modelled from the spec:
the shell-out collaborator (`GetCommandOutput` for the `minikube ip` /
`minishift ip` subcommands), `InCluster()` and the `JX_INTERPRET_PIPELINE`
environment variable, `amazon.RegisterAwsCustomDomain`, the
interactive-prompt collaborator (a finite stream of yes/no answers and of
free-text answers; an exhausted stream models end-of-input, which makes
`util.Confirm` return an error while `survey.AskOne`'s error is discarded
by the caller), the IKS cluster name/region helpers, `net.LookupIP`
(per attempt: the list of resolved IPs with their `IsLoopback` flag) and
the requirements-config `SaveConfig` collaborator. -/
structure Env where
  batchMode : Bool
  inCluster : Bool
  jxInterpretPipeline : Bool
  minikubeIP : Except Err String
  minishiftIP : Except Err String
  registerAwsDomain : String → String → Option Err
  confirmAnswers : List Bool
  textAnswers : List String
  iksClusterName : String
  iksClusterRegion : Except Err String
  lookupIP : Nat → List (String × Bool)
  saveResult : Option Err

/-- Splits a character list at `'.'` (ASCII dot), keeping empty chunks —
the character-level behavior of splitting a string on dots. -/
def chunksOnDot (cur : List Char) : List Char → List (List Char)
  | [] => [cur.reverse]
  | c :: rest =>
      if c = '.' then cur.reverse :: chunksOnDot [] rest
      else chunksOnDot (c :: cur) rest

/-- An ASCII decimal digit. -/
def isDigitChar (c : Char) : Bool := '0' ≤ c && c ≤ '9'

/-- The numeric value of an ASCII digit string. -/
def digitsToNat (ds : List Char) : Nat :=
  ds.foldl (fun acc c => acc * 10 + (c.toNat - '0'.toNat)) 0

/-- `strings.HasSuffix` / checking a string suffix. -/
def strEndsWith (s suffix : String) : Bool :=
  suffix.data.isSuffixOf s.data

/-- Models `net.ParseIP(s) != nil` for dotted-quad IPv4 literals (the only
address shape exercised by this core; IPv6 literals are not modelled). -/
def isIP (s : String) : Bool :=
  match chunksOnDot [] s.data with
  | [a, b, c, d] =>
      [a, b, c, d].all fun p =>
        !p.isEmpty && p.all isDigitChar && digitsToNat p ≤ 255
  | _ => false

/-- `findFirstExternalNodeIP` inner loops: the first node address of type
`NodeExternalIP` with a non-empty address, else `""`. -/
def firstExternalAddr (nodes : List Node) : String :=
  match nodes with
  | [] => ""
  | node :: rest =>
      match node.addresses.find? (fun a => a.addrType = NodeExternalIP && a.address ≠ "") with
      | some a => a.address
      | none => firstExternalAddr rest

/-- `findFirstExternalNodeIP` (`pkg/cmd/opts`, lines 328–343): lists the
cluster nodes and returns the first external node address; a `NotFound`
from the list call is tolerated (empty result, no error), any other error
is wrapped and surfaced. -/
def findFirstExternalNodeIP (client : Client) : Except Err String × List Effect :=
  match client.listNodes with
  | .error (.notFound _) => (.ok "", [.listNodes])
  | .error e => (.error (.wrapped "cannot list Nodes to find externalIP" e), [.listNodes])
  | .ok nodes => (.ok (firstExternalAddr nodes), [.listNodes])

/-- The loop over `svc.Status.LoadBalancer.Ingress` (lines 161–168): each
entry overwrites `address`, preferring the entry's IP over its hostname;
the last entry with data wins. -/
def lbAddress (init : String) (entries : List LoadBalancerIngress) : String :=
  entries.foldl
    (fun acc v => if v.ip ≠ "" then v.ip else if v.hostname ≠ "" then v.hostname else acc)
    init

/-- The loop over `svc.Spec.Ports` (lines 179–185): when the external IP is
non-empty, every port with a non-zero `NodePort` overwrites `address` with
`externalIP:nodePort` — so the last non-zero node port wins. -/
def nodePortAddress (address extIP : String) (ports : List ServicePort) : String :=
  if extIP = "" then address
  else
    ports.foldl
      (fun acc p => if p.nodePort ≠ 0 then extIP ++ ":" ++ toString p.nodePort else acc)
      address

/-- The `switch provider` of `GetDomain` (lines 128–187): locating the raw
address.  `minikube`/`minishift` shell out for the node IP when no
external-IP override is given; every other provider reads the ingress
service's load-balancer status and, for a NodePort service, combines an
external IP (the override, or the first external node address) with the
node ports. -/
def locateAddress (env : Env) (client : Client) (provider ingressNamespace ingressService externalIP : String) :
    Except Err String × List Effect :=
  if provider = MINIKUBE then
    if externalIP = "" then
      match env.minikubeIP with
      | .error e => (.error e, [.shellOut "minikube ip"])
      | .ok ip => (.ok ip, [.shellOut "minikube ip"])
    else (.ok externalIP, [])
  else if provider = MINISHIFT then
    if externalIP = "" then
      match env.minishiftIP with
      | .error e => (.error e, [.shellOut "minishift ip"])
      | .ok ip => (.ok ip, [.shellOut "minishift ip"])
    else (.ok externalIP, [])
  else
    match client.getService ingressNamespace ingressService with
    | .error e => (.error e, [.getService ingressNamespace ingressService])
    | .ok svc =>
      let address := lbAddress externalIP svc.lbIngress
      if svc.specType = ServiceTypeNodePort then
        if externalIP = "" then
          match findFirstExternalNodeIP client with
          | (.error e, tr) =>
              (.error (.wrapped "no externalIP specified and failed to find a Node externalIP probably due to RBAC" e),
               .getService ingressNamespace ingressService :: tr)
          | (.ok extIP, tr) =>
              (.ok (nodePortAddress address extIP svc.ports),
               .getService ingressNamespace ingressService :: tr)
        else
          (.ok (nodePortAddress address externalIP svc.ports),
           [.getService ingressNamespace ingressService])
      else (.ok address, [.getService ingressNamespace ingressService])

/-- The interactive AWS registration loop (`GetDomain` lines 209–227):
repeatedly `util.Confirm`; on "yes", `survey.AskOne` reads a custom domain
(its error is discarded, so end-of-input leaves the answer empty and the
loop continues); a non-empty answer is registered via
`amazon.RegisterAwsCustomDomain` and returned; on "no" the loop breaks and
`GetDomain` falls through.  An exhausted confirm stream models `Confirm`
returning an end-of-input error, which `GetDomain` surfaces.  Returns
`none` on break (fall through), `some r` on an early return, plus the
remaining answer streams and the effect trace. -/
def awsConfirmLoop (reg : String → String → Option Err) (address : String) :
    List Bool → List String → Option (Except Err String) × List Bool × List String × List Effect
  | [], ts => (some (.error (.msg "EOF reading confirmation")), [], ts, [.confirm])
  | a :: cs, ts =>
    if a then
      match ts with
      | [] =>
          let (r, cs', ts', tr) := awsConfirmLoop reg address cs []
          (r, cs', ts', .confirm :: .prompt :: tr)
      | t :: ts' =>
          if t ≠ "" then
            (some (match reg t address with
                   | some e => .error e
                   | none => .ok t), cs, ts', [.confirm, .prompt, .registerAws t])
          else
            let (r, cs', ts'', tr) := awsConfirmLoop reg address cs ts'
            (r, cs', ts'', .confirm :: .prompt :: tr)
    else (none, cs, ts, [.confirm])

/-- The AWS/EKS block of `GetDomain` (lines 191–229).  With an explicit
domain it is registered and returned.  Otherwise, only when not running
in-cluster and `JX_INTERPRET_PIPELINE` is not `"true"`: batch mode fails
demanding a custom domain, interactive mode enters the confirm loop.
Returns `none` when `GetDomain` is to fall through. -/
def awsBlock (env : Env) (domain address : String) (cs : List Bool) (ts : List String) :
    Option (Except Err String) × List Bool × List String × List Effect :=
  if domain ≠ "" then
    (some (match env.registerAwsDomain domain address with
           | some e => .error e
           | none => .ok domain), cs, ts, [.registerAws domain])
  else if ¬env.inCluster ∧ ¬env.jxInterpretPipeline then
    if env.batchMode then
      (some (.error (.msg "Please specify a custom DNS name via --domain when installing on AWS in batch mode")),
       cs, ts, [])
    else awsConfirmLoop env.registerAwsDomain address cs ts
  else (none, cs, ts, [])

/-- The IKS block of `GetDomain` (lines 231–247): an explicit domain is
returned as-is; else the default cluster domain
`clusterName.clusterRegion.containers.appdomain.cloud` is composed when
the (spec-modelled, source not under `src/`) name/region lookups succeed
with non-empty values; else fall through (`none`).  Per the source, the
error checked is that of the region lookup (the name lookup's error is
shadowed; a failed name lookup yields an empty name). -/
def iksBlock (env : Env) (domain : String) : Option (Except Err String) :=
  if domain ≠ "" then some (.ok domain)
  else
    match env.iksClusterRegion with
    | .ok region =>
        if env.iksClusterName ≠ "" ∧ region ≠ "" then
          some (.ok (env.iksClusterName ++ "." ++ region ++ ".containers.appdomain.cloud"))
        else none
    | .error _ => none

/-- The body of the DNS-resolution closure `f` (lines 268–280): the first
resolved IP whose string form is non-empty and which is not a loopback
address. -/
def firstUsableIP : List (String × Bool) → Option String
  | [] => none
  | (t, loopback) :: rest => if t ≠ "" ∧ ¬loopback then some t else firstUsableIP rest

/-- Modelled from the spec (§4.4): `o.RetryQuiet(attempts, interval, f)` —
bounded retry of `f` at a fixed interval, stopping at the first success;
its source is not under `src/`, only its call site (`5*6` attempts at 10s)
is.  `i` is the index of the next attempt, the second argument the number
of attempts remaining; each attempt is recorded in the trace. -/
def retryQuietResolve (lookup : Nat → List (String × Bool)) :
    Nat → Nat → Option String × List Effect
  | _, 0 => (none, [])
  | i, n + 1 =>
    match firstUsableIP (lookup i) with
    | some ip => (some ip, [.dnsAttempt i])
    | none =>
        let (r, tr) := retryQuietResolve lookup (i + 1) n
        (r, .dnsAttempt i :: tr)

/-- The number of DNS retry attempts `GetDomain` passes to `RetryQuiet`
(line 281): `5*6`. -/
def dnsRetryAttempts : Nat := 5 * 6

/-- The DNS retry interval `GetDomain` passes to `RetryQuiet` (line 281),
in seconds: `time.Second*10`. -/
def dnsRetryIntervalSeconds : Nat := 10

/-- The magic-DNS block of `GetDomain` (lines 249–294): for a non-empty,
non-NodePort address, an IP literal gets the `.nip.io` suffix (unless it
already ends in `.amazonaws.com`); a hostname is (after an interactive
confirmation, skipped in batch mode where resolution is unconditional)
resolved to an IP with bounded retry — on success the resolved IP is
suffixed, on exhaustion the unresolved hostname is kept as the default
with no suffix.  Returns `(address', defaultDomain')` plus the remaining
answer streams and trace; the only early error is an end-of-input failure
of the interactive confirmation. -/
def nipBlock (env : Env) (address : String) (nodePort : Bool) (cs : List Bool) (ts : List String) :
    Except Err (String × String) × List Bool × List String × List Effect :=
  if address ≠ "" ∧ ¬nodePort then
    if isIP address then
      (.ok (address,
            if strEndsWith address ".amazonaws.com" then address else address ++ ".nip.io"),
       cs, ts, [])
    else
      match (if env.batchMode then (some true, cs, ([] : List Effect)) else
             match cs with
             | [] => (none, [], [Effect.confirm])
             | a :: cs' => (some a, cs', [Effect.confirm])) with
      | (none, cs', tr) => (.error (.msg "EOF reading confirmation"), cs', ts, tr)
      | (some resolve, cs', tr) =>
          let (ipRes, tr2) :=
            if resolve then retryQuietResolve env.lookupIP 0 dnsRetryAttempts
            else (none, [])
          match ipRes with
          | none => (.ok (address, address), cs', ts, tr ++ tr2)
          | some ip =>
              (.ok (ip, if strEndsWith ip ".amazonaws.com" then ip else ip ++ ".nip.io"),
               cs', ts, tr ++ tr2)
  else (.ok (address, address), cs, ts, [])

/-- `survey.AskOne` with the `Required` and no-whitespace validators
(lines 308–315): the first offered answer that is non-empty and free of
whitespace; an exhausted stream models end-of-input, whose error the
caller discards, leaving the answer empty. -/
def askValidated : List String → String
  | [] => ""
  | t :: ts => if t ≠ "" ∧ ¬t.data.any Char.isWhitespace then t else askValidated ts

/-- The final block of `GetDomain` (lines 296–325): with no explicit
domain, batch mode accepts the synthesized default silently; interactive
mode prompts with the default pre-filled, falling back to the default on
an empty answer.  An explicit domain is returned unchanged. -/
def finalDomain (env : Env) (domain defaultDomain : String) (ts : List String) :
    Except Err String × List Effect :=
  if domain = "" then
    if env.batchMode then (.ok defaultDomain, [])
    else
      let answer := askValidated ts
      (.ok (if answer = "" then defaultDomain else answer), [.prompt])
  else (.ok domain, [])

/-- `GetDomain` (`pkg/cmd/opts`, lines 126–326): locate the raw address
per provider, run the AWS/EKS and IKS provider blocks, synthesize the
magic-DNS default, and apply the final explicit-domain/batch/interactive
policy. -/
def getDomain (env : Env) (client : Client)
    (domain provider ingressNamespace ingressService externalIP : String) (nodePort : Bool) :
    Except Err String × List Effect :=
  match locateAddress env client provider ingressNamespace ingressService externalIP with
  | (.error e, tr) => (.error e, tr)
  | (.ok address, tr) =>
    match (if provider = AWS ∨ provider = EKS then
             awsBlock env domain address env.confirmAnswers env.textAnswers
           else (none, env.confirmAnswers, env.textAnswers, [])) with
    | (some r, _, _, tr2) => (r, tr ++ tr2)
    | (none, cs, ts, tr2) =>
      match (if provider = IKS then iksBlock env domain else none) with
      | some r => (r, tr ++ tr2)
      | none =>
        match nipBlock env address nodePort cs ts with
        | (.error e, _, _, tr3) => (.error e, tr ++ tr2 ++ tr3)
        | (.ok (_, defaultDomain), _, ts', tr3) =>
          let (r, tr4) := finalDomain env domain defaultDomain ts'
          (r, tr ++ tr2 ++ tr3 ++ tr4)

/-- One step of a polled probe: readiness, error, next state, trace.
Mirrors a Go `func() (bool, error)` closure over mutable state. -/
structure ProbeStep (σ : Type) where
  ready : Bool
  err : Option Err
  state : σ
  trace : List Effect
deriving Repr

/-- Result of the poll scheduler: terminal error (`none` on success),
final state, trace. -/
structure PollResult (σ : Type) where
  err : Option Err
  state : σ
  trace : List Effect
deriving Repr

/-- The poll loop with a bounded number of probe invocations: stops at the
first `true` (no error), propagates a probe error immediately, and times
out when the invocations are exhausted. -/
def retryGo (probe : σ → ProbeStep σ) : Nat → σ → PollResult σ
  | 0, s => ⟨some .timeout, s, []⟩
  | fuel + 1, s =>
    let step := probe s
    match step.err with
    | some e => ⟨some e, step.state, step.trace⟩
    | none =>
      if step.ready then ⟨none, step.state, step.trace⟩
      else
        let r := retryGo probe fuel step.state
        ⟨r.err, r.state, step.trace ++ r.trace⟩

/-- Modelled from the spec (§4.2): `o.RetryUntilTrueOrTimeout(timeout,
interval, probe)` — its source is not under `src/`, only its call site
(5 minutes at 3-second intervals) is.  The probe runs at elapsed times
`0, I, 2I, …` up to the timeout, i.e. at most `timeout/interval + 1`
invocations (the spec's `ceil(timeout/interval)+1` bound), until it
returns true, returns an error (propagated immediately), or the timeout
elapses (a timeout error). -/
def retryUntilTrueOrTimeout (timeoutSeconds intervalSeconds : Nat)
    (probe : σ → ProbeStep σ) (s : σ) : PollResult σ :=
  retryGo probe (timeoutSeconds / intervalSeconds + 1) s

/-- The load-balancer-status check of the poll closure `fn`
(`step_verify_ingress.go` lines 266–270): some ingress entry carries a
hostname or an IP. -/
def hasLBHost (svc : Service) : Bool :=
  svc.lbIngress.any fun lb => lb.hostname ≠ "" || lb.ip ≠ ""

/-- The poll closure `fn` of `waitForIngressControllerHost` (lines
259–277).  The service's status may change between polls, so the client's
successive `Get` results are a call-indexed sequence `svcAt`; the state is
the captured `loggedWait` flag plus the index of the next `Get`.  A `Get`
error propagates; a ready status returns true; otherwise a one-time
waiting notice is logged. -/
def ingressHostProbe (svcAt : Nat → Except Err Service) (ns serviceName : String) :
    Bool × Nat → ProbeStep (Bool × Nat)
  | (loggedWait, i) =>
    match svcAt i with
    | .error e => ⟨false, some e, (loggedWait, i + 1), [.getService ns serviceName]⟩
    | .ok svc =>
      if hasLBHost svc then ⟨true, none, (loggedWait, i + 1), [.getService ns serviceName]⟩
      else if loggedWait then ⟨false, none, (loggedWait, i + 1), [.getService ns serviceName]⟩
      else ⟨false, none, (true, i + 1), [.getService ns serviceName, .logNotice]⟩

/-- `waitForIngressControllerHost` (`step_verify_ingress.go` lines
247–283): returns `(false, nil)` at once when the namespace or service
name is empty; surfaces an initial `Get` failure; then polls (5 minutes at
3-second intervals) for the service to report a load-balancer host,
returning `(true, nil)` on success and the poll's error (including
timeout) otherwise.  `svcAt i` is the result of the `i`-th `Get` call. -/
def waitForIngressControllerHost (svcAt : Nat → Except Err Service) (ns serviceName : String) :
    Except Err Bool × List Effect :=
  if serviceName = "" ∨ ns = "" then (.ok false, [])
  else
    match svcAt 0 with
    | .error e => (.error e, [.getService ns serviceName])
    | .ok _ =>
      let r := retryUntilTrueOrTimeout (5 * 60) 3 (ingressHostProbe svcAt ns serviceName) (false, 1)
      match r.err with
      | some e => (.error e, .getService ns serviceName :: r.trace)
      | none => (.ok true, .getService ns serviceName :: r.trace)

/-- `config.IngressTypeIstio` (value not under `src/`; modelled as the
obvious tag). -/
def IngressTypeIstio : String := "istio"
/-- `config.IngressTypeIngress` (value not under `src/`; modelled as the
obvious tag). -/
def IngressTypeIngress : String := "ingress"

/-- The `ingress` section of the requirements config, restricted to the
fields `discoverIngressDomain` reads or writes, plus an opaque `other`
field standing for every remaining field of the section. -/
structure IngressConfig where
  domain : String
  namespc : String
  service : String
  serviceType : String
  externalIP : String
  kind : String
  other : String
deriving DecidableEq, Repr

/-- The `cluster` section of the requirements config, restricted to the
fields `discoverIngressDomain` reads or writes, plus an opaque `other`
field standing for every remaining field of the section. -/
structure ClusterConfig where
  provider : String
  registry : String
  namespc : String
  other : String
deriving DecidableEq, Repr

/-- `config.RequirementsConfig`, restricted to the sections
`discoverIngressDomain` touches; `other` stands for every remaining
top-level field. -/
structure RequirementsConfig where
  ingress : IngressConfig
  cluster : ClusterConfig
  other : String
deriving DecidableEq, Repr

/-- The flags of `StepVerifyIngressOptions` read by
`discoverIngressDomain`. -/
structure VerifyOptions where
  provider : String
  ingressNamespace : String
  ingressService : String
deriving DecidableEq, Repr

/-- `DiscoverIngressValues` (`step_verify_ingress.go` lines 286–289). -/
structure DiscoverIngressValues where
  namespc : String
  service : String
deriving DecidableEq, Repr

/-- `istioIngressValues` (lines 292–295). -/
def istioIngressValues : DiscoverIngressValues :=
  ⟨"istio-system", "istio-ingressgateway"⟩

/-- `nginxIngressValues` (lines 297–300). -/
def nginxIngressValues : DiscoverIngressValues :=
  ⟨"nginx", "nginx-ingress-controller"⟩

/-- `findDefaultIngressValues` (lines 304–317): an explicitly declared
ingress kind picks its well-known pair; else an app named with the
`/istio` suffix picks the istio pair; else the nginx default. -/
def findDefaultIngressValues (requirements : RequirementsConfig) (apps : List String) :
    DiscoverIngressValues :=
  if requirements.ingress.kind = IngressTypeIstio then istioIngressValues
  else if requirements.ingress.kind = IngressTypeIngress then nginxIngressValues
  else if apps.any (fun app => strEndsWith app "/istio") then istioIngressValues
  else nginxIngressValues

/-- The registry-defaulting block of `discoverIngressDomain` (lines
222–237): on the plain `kubernetes` provider with no registry configured,
default the cluster namespace to `jx` when empty, look up the
`docker-registry` service (a not-found is tolerated) and adopt its
cluster IP when non-empty.  Returns the possibly updated requirements and
a terminal error for a non-not-found lookup failure. -/
def defaultRegistry (client : Client) (req : RequirementsConfig) :
    Option Err × RequirementsConfig × List Effect :=
  if req.cluster.provider = KUBERNETES ∧ req.cluster.registry = "" then
    let req2 :=
      if req.cluster.namespc = "" then
        { req with cluster := { req.cluster with namespc := "jx" } }
      else req
    match client.getService req2.cluster.namespc "docker-registry" with
    | .error (.notFound _) => (none, req2, [.getService req2.cluster.namespc "docker-registry"])
    | .error e =>
        (some (.wrapped "failed to list services so we can default the registry host" e),
         req2, [.getService req2.cluster.namespc "docker-registry"])
    | .ok svc =>
        if svc.clusterIP ≠ "" then
          (none, { req2 with cluster := { req2.cluster with registry := svc.clusterIP } },
           [.getService req2.cluster.namespc "docker-registry"])
        else (none, req2, [.getService req2.cluster.namespc "docker-registry"])
  else (none, req, [])

/-- `discoverIngressDomain` (`step_verify_ingress.go` lines 154–245),
with the Kubernetes client already constructed (the source obtains it via
`o.KubeClient()` before doing anything else).  A no-op when a domain is
already configured.  Otherwise: default the provider and the ingress
(namespace, service) pair, call `GetDomain`; on an empty result wait for
the ingress controller service to acquire a load-balancer host and retry
the call once; fail when the domain is still empty; record the domain,
opportunistically default the container registry, and save the
requirements config (`env.saveResult` models the config collaborator's
`SaveConfig`).  Returns the result, the (in-place mutated) requirements
value, and the effect trace. -/
def discoverIngressDomain (env : Env) (client : Client) (svcAt : Nat → Except Err Service)
    (o : VerifyOptions) (req : RequirementsConfig) (apps : List String) :
    Except Err Unit × RequirementsConfig × List Effect :=
  if req.ingress.domain ≠ "" then (.ok (), req, [])
  else
    let provider := if o.provider = "" then req.cluster.provider else o.provider
    let ns0 := if o.ingressNamespace = "" then req.ingress.namespc else o.ingressNamespace
    let svc0 := if o.ingressService = "" then req.ingress.service else o.ingressService
    let dv := findDefaultIngressValues req apps
    let ingSvc := if svc0 = "" then dv.service else svc0
    let ingNs := if ns0 = "" then dv.namespc else ns0
    let isNodePort := req.ingress.serviceType = ServiceTypeNodePort
    let externalIP := req.ingress.externalIP
    match getDomain env client "" provider ingNs ingSvc externalIP isNodePort with
    | (.error e, tr) => (.error (.wrapped "getting a domain for ingress service" e), req, tr)
    | (.ok d, tr) =>
      match (if d = "" then
               match waitForIngressControllerHost svcAt ingNs ingSvc with
               | (.error e, trw) => (.error (.wrapped "getting a domain for ingress service" e), trw)
               | (.ok true, trw) =>
                 match getDomain env client "" provider ingNs ingSvc externalIP isNodePort with
                 | (.error e, tr2) =>
                     (.error (.wrapped "getting a domain for ingress service" e), trw ++ tr2)
                 | (.ok d2, tr2) => (.ok d2, trw ++ tr2)
               | (.ok false, trw) => (.ok d, trw)
             else ((.ok d : Except Err String), ([] : List Effect))) with
      | (.error e, tr2) => (.error e, req, tr ++ tr2)
      | (.ok dom, tr2) =>
        if dom = "" then
          (.error (.msg ("failed to discover domain for ingress service " ++ ingNs ++ "/" ++ ingSvc)),
           req, tr ++ tr2)
        else
          let req1 := { req with ingress := { req.ingress with domain := dom } }
          match defaultRegistry client req1 with
          | (some e, reqX, tr3) => (.error e, reqX, tr ++ tr2 ++ tr3)
          | (none, reqX, tr3) =>
            match env.saveResult with
            | some e =>
                (.error (.wrapped "failed to save changes to file" e), reqX,
                 tr ++ tr2 ++ tr3 ++ [.saveConfig])
            | none => (.ok (), reqX, tr ++ tr2 ++ tr3 ++ [.saveConfig])

/-! ## Concrete fixtures

Concrete environments, services and clients used by the closed theorems
below; they mirror the fixtures of the repository's `TestDomain` test. -/

/-- A batch-mode environment with inert collaborators: not in-cluster,
`JX_INTERPRET_PIPELINE` unset, DNS never resolves, config save succeeds. -/
def batchEnv : Env := {
  batchMode := true
  inCluster := false
  jxInterpretPipeline := false
  minikubeIP := .ok "192.168.99.100"
  minishiftIP := .ok "192.168.99.101"
  registerAwsDomain := fun _ _ => none
  confirmAnswers := []
  textAnswers := []
  iksClusterName := ""
  iksClusterRegion := .error (.msg "iks lookup unavailable")
  lookupIP := fun _ => []
  saveResult := none }

/-- `batchEnv` but running inside the cluster's own bootstrap process. -/
def batchInClusterEnv : Env := { batchEnv with inCluster := true }

/-- The `gke-loadBalancer` service of `TestDomain`: a load-balancer
service whose status reports the single ingress IP `35.205.151.95`. -/
def gkeLBService : Service := {
  specType := ServiceTypeLoadBalancer
  ports := []
  lbIngress := [⟨"35.205.151.95", ""⟩]
  clusterIP := "" }

/-- A client exposing `gkeLBService` as `nginx/nginx-ingress-controller`. -/
def gkeClient : Client := {
  getService := fun ns name =>
    if ns = "nginx" ∧ name = "nginx-ingress-controller" then .ok gkeLBService
    else .error (.notFound "services")
  listNodes := .ok [] }

/-- The NodePort service of the `on-premise-nodePort` test cases: a single
port with `NodePort` 30123. -/
def nodePortService : Service := {
  specType := ServiceTypeNodePort
  ports := [⟨"http", 30123⟩]
  lbIngress := []
  clusterIP := "" }

/-- The node of the `on-premise-nodePort` test cases: internal IP
`1.2.3.4`, external IP `35.189.202.25`. -/
def onPremNode : Node :=
  ⟨[⟨NodeInternalIP, "1.2.3.4"⟩, ⟨NodeExternalIP, "35.189.202.25"⟩]⟩

/-- A client exposing `nodePortService` with `onPremNode` as the only
cluster node. -/
def nodePortClient : Client := {
  getService := fun ns name =>
    if ns = "nginx" ∧ name = "nginx-ingress-controller" then .ok nodePortService
    else .error (.notFound "services")
  listNodes := .ok [onPremNode] }

/-- `nodePortClient` with a different node list (no nodes at all). -/
def nodePortClientNoNodes : Client := {
  getService := nodePortClient.getService
  listNodes := .ok [] }

/-- A NodePort service with two non-zero node ports, 30001 then 30002, to
separate first-wins from last-wins port selection. -/
def twoPortService : Service := {
  specType := ServiceTypeNodePort
  ports := [⟨"a", 30001⟩, ⟨"b", 30002⟩]
  lbIngress := []
  clusterIP := "" }

/-- A client exposing `twoPortService`. -/
def twoPortClient : Client := {
  getService := fun ns name =>
    if ns = "nginx" ∧ name = "nginx-ingress-controller" then .ok twoPortService
    else .error (.notFound "services")
  listNodes := .ok [] }

/-- A load-balancer service whose status reports no ingress entries yet. -/
def emptyLBService : Service := ⟨ServiceTypeLoadBalancer, [], [], ""⟩

/-- A client exposing `emptyLBService`. -/
def emptyLBClient : Client := {
  getService := fun ns name =>
    if ns = "nginx" ∧ name = "nginx-ingress-controller" then .ok emptyLBService
    else .error (.notFound "services")
  listNodes := .ok [] }

/-- A load-balancer service whose status reports a hostname, not an IP. -/
def hostnameLBService : Service :=
  ⟨ServiceTypeLoadBalancer, [], [⟨"", "abc.example.com"⟩], ""⟩

/-- A client exposing `hostnameLBService`. -/
def hostnameLBClient : Client := {
  getService := fun ns name =>
    if ns = "nginx" ∧ name = "nginx-ingress-controller" then .ok hostnameLBService
    else .error (.notFound "services")
  listNodes := .ok [] }

/-- `batchEnv` with DNS resolution that fails on the first 29 attempts and
resolves to `1.2.3.4` on the 30th (index 29). -/
def lateDNSEnv : Env :=
  { batchEnv with lookupIP := fun i => if i = 29 then [("1.2.3.4", false)] else [] }

/-- The number of DNS resolution attempts recorded in a trace. -/
def countDnsAttempts (tr : List Effect) : Nat :=
  tr.countP fun e => match e with | .dnsAttempt _ => true | _ => false

/-- Decidable equality for `Except` results, so that closed runs of the
embedded functions can be settled by `decide`. -/
instance exceptDecEq {ε α : Type} [DecidableEq ε] [DecidableEq α] : DecidableEq (Except ε α)
  | .error e, .error f =>
      if h : e = f then .isTrue (by rw [h]) else .isFalse (by simp [h])
  | .error _, .ok _ => .isFalse (by simp)
  | .ok _, .error _ => .isFalse (by simp)
  | .ok a, .ok b =>
      if h : a = b then .isTrue (by rw [h]) else .isFalse (by simp [h])

/-- The node-port value the source's loop (lines 180–185) ends up with:
the LAST non-zero `NodePort` in port-list order. -/
def lastNonZeroNodePort (ports : List ServicePort) : Option Nat :=
  ports.foldl (fun acc p => if p.nodePort ≠ 0 then some p.nodePort else acc) none

/-- The spec's words for the node-port selection ("the first non-zero
node-port value found on the service's port list"), for comparison with
the source's `lastNonZeroNodePort`. -/
def firstNonZeroNodePort (ports : List ServicePort) : Option Nat :=
  ports.findSome? fun p => if p.nodePort ≠ 0 then some p.nodePort else none

/-- The `docker-registry` service fixture, cluster IP `10.0.0.1`. -/
def registryService : Service := ⟨"ClusterIP", [], [], "10.0.0.1"⟩

/-- A client exposing the ingress controller (`gkeLBService`) and the
`docker-registry` service in the `jx` namespace. -/
def discoverClient : Client := {
  getService := fun ns name =>
    if ns = "nginx" ∧ name = "nginx-ingress-controller" then .ok gkeLBService
    else if ns = "jx" ∧ name = "docker-registry" then .ok registryService
    else .error (.notFound "services")
  listNodes := .ok [] }

/-- A requirements config with no domain, the plain `kubernetes` provider,
and empty registry and cluster namespace. -/
def blankRequirements : RequirementsConfig := {
  ingress := ⟨"", "", "", "", "", "", "ingress-other"⟩
  cluster := ⟨"kubernetes", "", "", "cluster-other"⟩
  other := "requirements-other" }

/-- A requirements config whose ingress domain is already configured. -/
def configuredRequirements : RequirementsConfig :=
  { blankRequirements with
      ingress := { blankRequirements.ingress with domain := "example.org" } }

/-- `StepVerifyIngressOptions` with no flags set. -/
def noFlags : VerifyOptions := ⟨"", "", ""⟩

/-- A service-status sequence whose every `Get` reports a load-balancer
host immediately. -/
def hostReadySeq : Nat → Except Err Service := fun _ => .ok gkeLBService

/-! ## Claim theorems -/
/-- C1: load-balancer ingress IP 35.205.151.95 on gke, batch mode, no
domain, no override: exactly `35.205.151.95.nip.io`, nil error. -/
theorem getDomain_gke_loadbalancer_nip :
    (getDomain batchEnv gkeClient "" GKE "nginx" "nginx-ingress-controller" "" false).1
      = .ok "35.205.151.95.nip.io" := by decide

/-- C7: domain already configured: no-op. -/
theorem discoverIngressDomain_noop_when_domain_set
    (env : Env) (client : Client) (svcAt : Nat → Except Err Service)
    (o : VerifyOptions) (req : RequirementsConfig) (apps : List String)
    (h : req.ingress.domain ≠ "") :
    discoverIngressDomain env client svcAt o req apps = (.ok (), req, []) := by
  simp [discoverIngressDomain, h]

theorem discoverIngressDomain_noop_witness :
    configuredRequirements.ingress.domain ≠ ""
    ∧ discoverIngressDomain batchEnv discoverClient hostReadySeq noFlags
        configuredRequirements [] = (.ok (), configuredRequirements, []) :=
  ⟨by decide,
   discoverIngressDomain_noop_when_domain_set batchEnv discoverClient hostReadySeq
     noFlags configuredRequirements [] (by decide)⟩

/-- C10: empty namespace or service name: immediate (false, nil), no
lookup, no polling. -/
theorem waitForIngressControllerHost_empty_ref
    (svcAt : Nat → Except Err Service) (ns serviceName : String)
    (h : serviceName = "" ∨ ns = "") :
    waitForIngressControllerHost svcAt ns serviceName = (.ok false, []) := by
  simp [waitForIngressControllerHost, h]

theorem waitForIngressControllerHost_empty_ref_witness :
    waitForIngressControllerHost hostReadySeq "" "nginx-ingress-controller" = (.ok false, []) :=
  waitForIngressControllerHost_empty_ref hostReadySeq "" "nginx-ingress-controller" (Or.inr rfl)

/-- C2 counterexample: an LB service with no ingress entries yet, gke,
batch, no domain: GetDomain returns the empty domain with a nil error. -/
theorem getDomain_empty_domain_nil_error :
    (getDomain batchEnv emptyLBClient "" GKE "nginx" "nginx-ingress-controller" "" false).1
      = .ok "" := by decide

/-- C5 counterexample: aws, batch, no domain, but running in-cluster:
GetDomain succeeds with the nip.io default instead of failing. -/
theorem getDomain_aws_batch_in_cluster_no_error :
    (getDomain batchInClusterEnv gkeClient "" AWS "nginx" "nginx-ingress-controller" "" false).1
      = .ok "35.205.151.95.nip.io" := by decide

/-- C8 counterexample: N = 0 (the probe is true on its very first
invocation): the wait succeeds but zero waiting notices are logged. -/
theorem waitForIngressControllerHost_zero_notices :
    (waitForIngressControllerHost hostReadySeq "nginx" "nginx-ingress-controller").1 = .ok true
    ∧ (waitForIngressControllerHost hostReadySeq "nginx" "nginx-ingress-controller").2.count
        .logNotice = 0 := by
  constructor <;> decide

/-- C9 counterexample: a successful discovery on the kubernetes provider
with empty registry and cluster namespace also rewrites
`cluster.namespace` from `""` to `"jx"`. -/
theorem discoverIngressDomain_changes_cluster_namespace :
    (discoverIngressDomain batchEnv discoverClient hostReadySeq noFlags blankRequirements []).1
      = .ok ()
    ∧ (discoverIngressDomain batchEnv discoverClient hostReadySeq noFlags blankRequirements []).2.1.cluster.namespc
      = "jx"
    ∧ blankRequirements.cluster.namespc = "" := by
  refine ⟨?_, ?_, ?_⟩ <;> decide

/-- C6 counterexample: DNS that resolves only on the 30th attempt: the
code still resolves (30 recorded attempts, success, no fallback), so the
bound is not 5 attempts. -/
theorem getDomain_dns_thirty_attempts :
    (getDomain lateDNSEnv hostnameLBClient "" KUBERNETES "nginx" "nginx-ingress-controller" "" false).1
      = .ok "1.2.3.4.nip.io"
    ∧ countDnsAttempts
        (getDomain lateDNSEnv hostnameLBClient "" KUBERNETES "nginx" "nginx-ingress-controller" "" false).2
      = 30 := by
  constructor <;> decide

/-- C3 counterexample: two non-zero node ports 30001 then 30002 with
override 9.9.9.9: the address uses the LAST non-zero node port, not the
first. -/
theorem getDomain_nodeport_last_wins :
    (getDomain batchEnv twoPortClient "" KUBERNETES "nginx" "nginx-ingress-controller" "9.9.9.9" true).1
      = .ok ("9.9.9.9:" ++ toString ((lastNonZeroNodePort twoPortService.ports).getD 0))
    ∧ (getDomain batchEnv twoPortClient "" KUBERNETES "nginx" "nginx-ingress-controller" "9.9.9.9" true).1
      ≠ .ok ("9.9.9.9:" ++ toString ((firstNonZeroNodePort twoPortService.ports).getD 0)) := by
  constructor <;> decide

theorem nodePort_foldl_render (extIP : String) (ports : List ServicePort) :
    ∀ (o : Option Nat) (a : String),
      ports.foldl
          (fun acc p => if p.nodePort ≠ 0 then extIP ++ ":" ++ toString p.nodePort else acc)
          (match o with | some p => extIP ++ ":" ++ toString p | none => a)
        = match ports.foldl (fun acc p => if p.nodePort ≠ 0 then some p.nodePort else acc) o with
          | some p => extIP ++ ":" ++ toString p
          | none => a := by
  induction ports with
  | nil => intro o a; rfl
  | cons q qs ih =>
    intro o a
    simp only [List.foldl_cons]
    by_cases hq : q.nodePort ≠ 0
    · rw [if_pos hq, if_pos hq]
      exact ih (some q.nodePort) a
    · rw [if_neg hq, if_neg hq]
      exact ih o a

theorem nodePortAddress_last (a extIP : String) (ports : List ServicePort) (hne : extIP ≠ "") :
    nodePortAddress a extIP ports
      = match lastNonZeroNodePort ports with
        | some p => extIP ++ ":" ++ toString p
        | none => a := by
  unfold nodePortAddress lastNonZeroNodePort
  rw [if_neg hne]
  exact nodePort_foldl_render extIP ports none a

/-- C3 (amended): for a NodePort service with a known external IP, the
address is `ip:port` with the LAST non-zero node port in port-list
iteration order. -/
theorem locateAddress_nodeport_last_port
    (env : Env) (client : Client) (provider ns name extIP : String) (svc : Service) (p : Nat)
    (hp1 : provider ≠ MINIKUBE) (hp2 : provider ≠ MINISHIFT)
    (hsvc : client.getService ns name = .ok svc)
    (ht : svc.specType = ServiceTypeNodePort)
    (hext : extIP ≠ "")
    (hlast : lastNonZeroNodePort svc.ports = some p) :
    (locateAddress env client provider ns name extIP).1 = .ok (extIP ++ ":" ++ toString p) := by
  unfold locateAddress
  rw [if_neg hp1, if_neg hp2, hsvc]
  simp only [ht, if_neg hext, if_true, reduceIte]
  rw [nodePortAddress_last _ _ _ hext, hlast]

theorem locateAddress_nodeport_last_port_witness :
    (locateAddress batchEnv twoPortClient KUBERNETES "nginx" "nginx-ingress-controller" "9.9.9.9").1
      = .ok ("9.9.9.9" ++ ":" ++ toString 30002) :=
  locateAddress_nodeport_last_port batchEnv twoPortClient KUBERNETES "nginx"
    "nginx-ingress-controller" "9.9.9.9" twoPortService 30002
    (by decide) (by decide) (by decide) rfl (by decide) (by decide)

/-- The locate phase performs no interactive and no DNS effects: its trace
holds only service lookups, node listings and shell-outs. -/
theorem locateAddress_trace_clean (env : Env) (client : Client)
    (provider ns name extIP : String) :
    Effect.confirm ∉ (locateAddress env client provider ns name extIP).2
    ∧ Effect.prompt ∉ (locateAddress env client provider ns name extIP).2
    ∧ countDnsAttempts (locateAddress env client provider ns name extIP).2 = 0 := by
  unfold locateAddress findFirstExternalNodeIP
  by_cases h1 : provider = MINIKUBE
  · by_cases he : extIP = ""
    · cases env.minikubeIP <;> simp [h1, he, countDnsAttempts]
    · simp [h1, he, countDnsAttempts]
  · by_cases h2 : provider = MINISHIFT
    · by_cases he : extIP = ""
      · cases env.minishiftIP <;> simp [h1, h2, he, MINIKUBE, MINISHIFT, countDnsAttempts]
      · simp [h1, h2, he, MINIKUBE, MINISHIFT, countDnsAttempts]
    · simp only [if_neg h1, if_neg h2]
      cases hs : client.getService ns name with
      | error e => simp [hs, countDnsAttempts]
      | ok svc =>
        by_cases h3 : svc.specType = ServiceTypeNodePort
        · by_cases he : extIP = ""
          · cases hn : client.listNodes with
            | error e => cases e <;> simp [hs, h3, he, hn, countDnsAttempts]
            | ok nodes => simp [hs, h3, he, hn, countDnsAttempts]
          · simp [hs, h3, he, countDnsAttempts]
        · simp [hs, h3, countDnsAttempts]

/-- C4: a non-empty external-IP override makes the locate phase (and with
it the NodePort resolution) independent of the cluster's node list — the
node list is never consulted — and on the on-premise fixture the override
beats the node-discovered 35.189.202.25, yielding 1.2.3.4:30123. -/
theorem getDomain_external_ip_override_wins :
    (∀ (env : Env) (svcs : String → String → Except Err Service)
       (nodes1 nodes2 : Except Err (List Node)) (provider ns name extIP : String),
        extIP ≠ "" →
          locateAddress env ⟨svcs, nodes1⟩ provider ns name extIP
            = locateAddress env ⟨svcs, nodes2⟩ provider ns name extIP
          ∧ Effect.listNodes ∉ (locateAddress env ⟨svcs, nodes1⟩ provider ns name extIP).2)
    ∧ (getDomain batchEnv nodePortClient "" KUBERNETES "nginx" "nginx-ingress-controller"
        "1.2.3.4" true).1 = .ok "1.2.3.4:30123" := by
  constructor
  · intro env svcs nodes1 nodes2 provider ns name extIP hext
    unfold locateAddress
    by_cases h1 : provider = MINIKUBE
    · cases env.minikubeIP <;> simp [h1, hext]
    · by_cases h2 : provider = MINISHIFT
      · cases env.minishiftIP <;> simp [h1, h2, hext, MINIKUBE, MINISHIFT]
      · simp only [if_neg h1, if_neg h2]
        cases hs : svcs ns name with
        | error e => simp [hs]
        | ok svc =>
          by_cases h3 : svc.specType = ServiceTypeNodePort
          · simp [hs, h3, hext]
          · simp [hs, h3]
  · decide

theorem getDomain_external_ip_override_wins_witness :
    locateAddress batchEnv nodePortClient KUBERNETES "nginx" "nginx-ingress-controller" "1.2.3.4"
      = locateAddress batchEnv nodePortClientNoNodes KUBERNETES "nginx" "nginx-ingress-controller"
          "1.2.3.4"
    ∧ Effect.listNodes
        ∉ (locateAddress batchEnv nodePortClient KUBERNETES "nginx" "nginx-ingress-controller"
            "1.2.3.4").2 :=
  getDomain_external_ip_override_wins.1 batchEnv nodePortClient.getService
    nodePortClient.listNodes nodePortClientNoNodes.listNodes KUBERNETES "nginx"
    "nginx-ingress-controller" "1.2.3.4" (by decide)

/-- C5 (amended): aws/eks + batch + no explicit domain + not running
in-cluster (and `JX_INTERPRET_PIPELINE` unset): whenever the endpoint
lookup succeeds, GetDomain fails demanding a custom domain, and in every
case no interactive confirm or prompt is invoked. -/
theorem getDomain_aws_batch_missing_domain
    (env : Env) (client : Client) (provider ns name extIP : String) (nodePort : Bool)
    (hp : provider = AWS ∨ provider = EKS)
    (hb : env.batchMode = true) (hic : env.inCluster = false)
    (hjx : env.jxInterpretPipeline = false) :
    (∀ a tr, locateAddress env client provider ns name extIP = (.ok a, tr) →
      (getDomain env client "" provider ns name extIP nodePort).1
        = .error (.msg "Please specify a custom DNS name via --domain when installing on AWS in batch mode"))
    ∧ Effect.confirm ∉ (getDomain env client "" provider ns name extIP nodePort).2
    ∧ Effect.prompt ∉ (getDomain env client "" provider ns name extIP nodePort).2 := by
  have hclean := locateAddress_trace_clean env client provider ns name extIP
  unfold getDomain
  cases hloc : locateAddress env client provider ns name extIP with
  | mk la tr =>
    rw [hloc] at hclean
    cases la with
    | error e =>
      refine ⟨fun a tr2 h => by simp at h, ?_, ?_⟩ <;> simp [hclean.1, hclean.2.1]
    | ok a =>
      have hawsif : (provider = AWS ∨ provider = EKS) = True := by simp [hp]
      simp only [hawsif, if_true, awsBlock, if_neg (by simp : ¬("" ≠ "")), hic, hjx]
      simp only [not_false_iff, true_and, if_true, hb, if_pos]
      refine ⟨fun a2 tr2 h => rfl, ?_, ?_⟩ <;>
        simp [hclean.1, hclean.2.1]

theorem getDomain_aws_batch_missing_domain_witness :
    (getDomain batchEnv gkeClient "" AWS "nginx" "nginx-ingress-controller" "" false).1
      = .error (.msg "Please specify a custom DNS name via --domain when installing on AWS in batch mode") :=
  (getDomain_aws_batch_missing_domain batchEnv gkeClient AWS "nginx"
    "nginx-ingress-controller" "" false (Or.inl rfl) rfl rfl rfl).1
    "35.205.151.95" [.getService "nginx" "nginx-ingress-controller"] (by decide)

theorem append_ne_empty_right (a b : String) (h : b ≠ "") : a ++ b ≠ "" := by
  intro hc
  cases a with
  | mk la =>
  cases b with
  | mk lb =>
  simp [String.ext_iff, String.data_append] at hc
  exact h (by simp [String.ext_iff, hc.2])

theorem awsConfirmLoop_ok_ne (reg : String → String → Option Err) (address : String) :
    ∀ (cs : List Bool) (ts : List String) (d : String),
      (awsConfirmLoop reg address cs ts).1 = some (.ok d) → d ≠ "" := by
  intro cs
  induction cs with
  | nil => intro ts d h; simp [awsConfirmLoop] at h
  | cons a cs ih =>
    intro ts d h
    unfold awsConfirmLoop at h
    by_cases ha : a = true
    · rw [if_pos ha] at h
      cases ts with
      | nil =>
        simp only at h
        exact ih [] d h
      | cons t ts2 =>
        simp only at h
        by_cases ht : t ≠ ""
        · rw [if_pos ht] at h
          simp only [Option.some.injEq] at h
          cases hr : reg t address with
          | some e => rw [hr] at h; simp at h
          | none => rw [hr] at h; simp at h; rw [← h]; exact ht
        · rw [if_neg ht] at h
          exact ih ts2 d h
    · simp only [Bool.not_eq_true] at ha
      rw [ha] at h
      simp at h

theorem firstUsableIP_ne :
    ∀ (l : List (String × Bool)) (t : String), firstUsableIP l = some t → t ≠ "" := by
  intro l
  induction l with
  | nil => intro t h; simp [firstUsableIP] at h
  | cons p rest ih =>
    intro t h
    unfold firstUsableIP at h
    by_cases hp : p.1 ≠ "" ∧ ¬p.2
    · cases p with
      | mk t0 lb =>
        rw [if_pos hp] at h
        simp only [Option.some.injEq] at h
        rw [← h]
        exact hp.1
    · cases p with
      | mk t0 lb =>
        rw [if_neg hp] at h
        exact ih t h

theorem retryQuietResolve_some_ne (lookup : Nat → List (String × Bool)) :
    ∀ (n i : Nat) (ip : String), (retryQuietResolve lookup i n).1 = some ip → ip ≠ "" := by
  intro n
  induction n with
  | zero => intro i ip h; simp [retryQuietResolve] at h
  | succ m ih =>
    intro i ip h
    unfold retryQuietResolve at h
    cases hf : firstUsableIP (lookup i) with
    | some t =>
      rw [hf] at h
      simp only [Option.some.injEq] at h
      rw [← h]
      exact firstUsableIP_ne _ t hf
    | none =>
      rw [hf] at h
      simp only at h
      exact ih (i + 1) ip h

theorem awsBlock_ok_ne (env : Env) (domain address : String) (cs : List Bool) (ts : List String)
    (d : String) (h : (awsBlock env domain address cs ts).1 = some (.ok d)) : d ≠ "" := by
  unfold awsBlock at h
  by_cases hd : domain ≠ ""
  · rw [if_pos hd] at h
    simp only [Option.some.injEq] at h
    cases hr : env.registerAwsDomain domain address with
    | some e => rw [hr] at h; simp at h
    | none => rw [hr] at h; simp at h; rw [← h]; exact hd
  · rw [if_neg hd] at h
    by_cases hic : ¬env.inCluster ∧ ¬env.jxInterpretPipeline
    · rw [if_pos hic] at h
      by_cases hb : env.batchMode = true
      · simp [hb] at h
      · simp only [Bool.not_eq_true] at hb
        rw [hb] at h
        simp only [if_neg (by simp : ¬(false = true))] at h
        exact awsConfirmLoop_ok_ne env.registerAwsDomain address cs ts d h
    · rw [if_neg hic] at h
      simp at h

theorem iksBlock_ok_ne (env : Env) (domain d : String)
    (h : iksBlock env domain = some (.ok d)) : d ≠ "" := by
  unfold iksBlock at h
  by_cases hd : domain ≠ ""
  · rw [if_pos hd] at h
    simp only [Option.some.injEq, Except.ok.injEq] at h
    rw [← h]
    exact hd
  · rw [if_neg hd] at h
    cases hr : env.iksClusterRegion with
    | error e => rw [hr] at h; simp at h
    | ok region =>
      rw [hr] at h
      dsimp only at h
      by_cases hc : env.iksClusterName ≠ "" ∧ region ≠ ""
      · rw [if_pos hc] at h
        simp only [Option.some.injEq, Except.ok.injEq] at h
        rw [← h]
        exact append_ne_empty_right _ _ (by decide)
      · rw [if_neg hc] at h
        simp at h

theorem nipBlock_default_ne (env : Env) (address : String) (nodePort : Bool)
    (cs : List Bool) (ts : List String) (ha : address ≠ "") :
    ∀ a2 d2 cs2 ts2 tr2, nipBlock env address nodePort cs ts = (.ok (a2, d2), cs2, ts2, tr2) →
      d2 ≠ "" := by
  intro a2 d2 cs2 ts2 tr2 h
  unfold nipBlock at h
  by_cases hn : address ≠ "" ∧ ¬nodePort
  · rw [if_pos hn] at h
    by_cases hip : isIP address = true
    · rw [if_pos hip] at h
      simp only [Prod.mk.injEq, Except.ok.injEq] at h
      by_cases hamz : strEndsWith address ".amazonaws.com" = true
      · rw [if_pos hamz] at h
        rw [← h.1.2]
        exact ha
      · rw [if_neg hamz] at h
        rw [← h.1.2]
        exact append_ne_empty_right _ _ (by decide)
    · rw [if_neg hip] at h
      by_cases hb : env.batchMode = true
      · simp only [hb, if_pos] at h
        cases hres : (retryQuietResolve env.lookupIP 0 dnsRetryAttempts).1 with
        | none =>
          rw [hres] at h
          simp only [Prod.mk.injEq, Except.ok.injEq] at h
          rw [← h.1.2]
          exact ha
        | some ip =>
          rw [hres] at h
          simp only [Prod.mk.injEq, Except.ok.injEq] at h
          by_cases hamz : strEndsWith ip ".amazonaws.com" = true
          · rw [if_pos hamz] at h
            rw [← h.1.2]
            exact retryQuietResolve_some_ne env.lookupIP _ 0 ip hres
          · rw [if_neg hamz] at h
            rw [← h.1.2]
            exact append_ne_empty_right _ _ (by decide)
      · simp only [Bool.not_eq_true] at hb
        rw [hb] at h
        simp only [Bool.false_eq_true, if_false] at h
        cases cs with
        | nil => simp at h
        | cons a0 cs0 =>
          dsimp only at h
          cases ha0 : a0 with
          | false =>
            rw [ha0] at h
            simp only [Bool.false_eq_true, if_false] at h
            simp only [Prod.mk.injEq, Except.ok.injEq] at h
            rw [← h.1.2]
            exact ha
          | true =>
            rw [ha0] at h
            simp only [if_true] at h
            cases hres : (retryQuietResolve env.lookupIP 0 dnsRetryAttempts).1 with
            | none =>
              rw [hres] at h
              simp only [Prod.mk.injEq, Except.ok.injEq] at h
              rw [← h.1.2]
              exact ha
            | some ip =>
              rw [hres] at h
              simp only [Prod.mk.injEq, Except.ok.injEq] at h
              by_cases hamz : strEndsWith ip ".amazonaws.com" = true
              · rw [if_pos hamz] at h
                rw [← h.1.2]
                exact retryQuietResolve_some_ne env.lookupIP _ 0 ip hres
              · rw [if_neg hamz] at h
                rw [← h.1.2]
                exact append_ne_empty_right _ _ (by decide)
  · rw [if_neg hn] at h
    simp only [Prod.mk.injEq, Except.ok.injEq] at h
    rw [← h.1.2]
    exact ha

theorem finalDomain_ok_empty (env : Env) (domain d0 : String) (ts : List String)
    (h : (finalDomain env domain d0 ts).1 = .ok "") : d0 = "" := by
  unfold finalDomain at h
  by_cases hdom : domain = ""
  · rw [if_pos hdom] at h
    by_cases hb : env.batchMode = true
    · rw [if_pos hb] at h
      simp only [Except.ok.injEq] at h
      exact h
    · rw [if_neg hb] at h
      simp only [Except.ok.injEq] at h
      by_cases hans : askValidated ts = ""
      · rw [if_pos hans] at h
        exact h
      · rw [if_neg hans] at h
        exact absurd h hans
  · rw [if_neg hdom] at h
    simp only [Except.ok.injEq] at h
    exact absurd h hdom

/-- C2 (amended): GetDomain yields an empty domain with a nil error only
when the located address is itself empty — with a non-empty located
address, a nil error implies a non-empty domain. -/
theorem getDomain_empty_only_when_address_empty
    (env : Env) (client : Client)
    (domain provider ns name extIP : String) (nodePort : Bool)
    (h : (getDomain env client domain provider ns name extIP nodePort).1 = .ok "") :
    (locateAddress env client provider ns name extIP).1 = .ok "" := by
  unfold getDomain at h
  cases hloc : locateAddress env client provider ns name extIP with
  | mk la tr =>
    rw [hloc] at h
    cases la with
    | error e => simp at h
    | ok a =>
      dsimp only at h
      rcases hA : (if provider = AWS ∨ provider = EKS then
          awsBlock env domain a env.confirmAnswers env.textAnswers
        else (none, env.confirmAnswers, env.textAnswers, [])) with ⟨or, csA, tsA, trA⟩
      rw [hA] at h
      cases or with
      | some r =>
        dsimp only at h
        by_cases hpa : provider = AWS ∨ provider = EKS
        · rw [if_pos hpa] at hA
          have : (awsBlock env domain a env.confirmAnswers env.textAnswers).1 = some r := by
            rw [hA]
          rw [h] at this
          exact absurd rfl (awsBlock_ok_ne env domain a env.confirmAnswers env.textAnswers "" this)
        · rw [if_neg hpa] at hA
          simp at hA
      | none =>
        dsimp only at h
        rcases hI : (if provider = IKS then iksBlock env domain else none) with _ | r
        · rw [hI] at h
          dsimp only at h
          rcases hN : nipBlock env a nodePort csA tsA with ⟨exr, csN, tsN, trN⟩
          rw [hN] at h
          cases exr with
          | error e => simp at h
          | ok pr =>
            rcases pr with ⟨a2, d2⟩
            dsimp only at h
            have hfin : (finalDomain env domain d2 tsN).1 = .ok "" := by
              rcases hF : finalDomain env domain d2 tsN with ⟨r4, tr4⟩
              rw [hF] at h
              dsimp only at h
              exact h
            have hd2 : d2 = "" := finalDomain_ok_empty env domain d2 tsN hfin
            by_cases haa : a = ""
            · simp [haa]
            · exact absurd hd2
                (nipBlock_default_ne env a nodePort csA tsA haa a2 d2 csN tsN trN hN)
        · rw [hI] at h
          dsimp only at h
          rw [h] at hI
          by_cases hpi : provider = IKS
          · rw [if_pos hpi] at hI
            exact absurd rfl (iksBlock_ok_ne env domain "" hI)
          · rw [if_neg hpi] at hI
            simp at hI

theorem getDomain_empty_only_when_address_empty_witness :
    (locateAddress batchEnv emptyLBClient GKE "nginx" "nginx-ingress-controller" "").1
      = .ok "" :=
  getDomain_empty_only_when_address_empty batchEnv emptyLBClient "" GKE "nginx"
    "nginx-ingress-controller" "" false (by decide)

theorem retryQuietResolve_count_le (lookup : Nat → List (String × Bool)) :
    ∀ (n i : Nat), countDnsAttempts (retryQuietResolve lookup i n).2 ≤ n := by
  intro n
  induction n with
  | zero => intro i; simp [retryQuietResolve, countDnsAttempts]
  | succ m ih =>
    intro i
    unfold retryQuietResolve
    cases hf : firstUsableIP (lookup i) with
    | some t => simp [countDnsAttempts]
    | none =>
      have hm := ih (i + 1)
      rcases hR : retryQuietResolve lookup (i + 1) m with ⟨r, tr⟩
      rw [hR] at hm
      dsimp only
      simp only [countDnsAttempts, List.countP_cons] at hm ⊢
      simp
      omega

theorem retryQuietResolve_all_none (lookup : Nat → List (String × Bool))
    (hall : ∀ j, firstUsableIP (lookup j) = none) :
    ∀ (n i : Nat), (retryQuietResolve lookup i n).1 = none
      ∧ countDnsAttempts (retryQuietResolve lookup i n).2 = n := by
  intro n
  induction n with
  | zero => intro i; simp [retryQuietResolve, countDnsAttempts]
  | succ m ih =>
    intro i
    unfold retryQuietResolve
    rw [hall i]
    have hm := ih (i + 1)
    rcases hR : retryQuietResolve lookup (i + 1) m with ⟨r, tr⟩
    rw [hR] at hm
    dsimp only
    simp only [countDnsAttempts, List.countP_cons] at hm ⊢
    refine ⟨hm.1, ?_⟩
    simp [hm.2]

/-- C6 (amended): on the generic path (non-AWS/EKS/IKS provider), for a
non-empty located address that is not an IP literal, non-NodePort, batch
mode, no explicit domain: the DNS resolution is retried at most
`dnsRetryAttempts = 5*6 = 30` times at `dnsRetryIntervalSeconds = 10`
second intervals, and when every attempt fails GetDomain falls back to
the unresolved hostname. -/
theorem getDomain_dns_retry_bound
    (env : Env) (client : Client) (provider ns name extIP a : String) (tr : List Effect)
    (hp1 : provider ≠ AWS) (hp2 : provider ≠ EKS) (hp3 : provider ≠ IKS)
    (hb : env.batchMode = true)
    (hloc : locateAddress env client provider ns name extIP = (.ok a, tr))
    (hip : isIP a = false) (ha : a ≠ "") :
    dnsRetryAttempts = 5 * 6
    ∧ dnsRetryIntervalSeconds = 10
    ∧ countDnsAttempts (getDomain env client "" provider ns name extIP false).2
        ≤ dnsRetryAttempts
    ∧ ((∀ j, firstUsableIP (env.lookupIP j) = none) →
        (getDomain env client "" provider ns name extIP false).1 = .ok a) := by
  have hclean := (locateAddress_trace_clean env client provider ns name extIP).2.2
  rw [hloc] at hclean
  simp only [countDnsAttempts] at hclean
  have hnip : ∀ ipRes tr2, retryQuietResolve env.lookupIP 0 dnsRetryAttempts = (ipRes, tr2) →
      nipBlock env a false env.confirmAnswers env.textAnswers
      = (match ipRes with
         | none => (.ok (a, a), env.confirmAnswers, env.textAnswers, tr2)
         | some ip => (.ok (ip, if strEndsWith ip ".amazonaws.com" then ip
                              else ip ++ ".nip.io"),
                       env.confirmAnswers, env.textAnswers, tr2)) := by
    intro ipRes tr2 hR
    unfold nipBlock
    rw [if_pos ⟨ha, by simp⟩, if_neg (by simp [hip]), hb]
    dsimp only [if_true]
    rw [hR]
    cases ipRes <;> rfl
  constructor
  · rfl
  constructor
  · rfl
  rcases hR : retryQuietResolve env.lookupIP 0 dnsRetryAttempts with ⟨ipRes, tr2⟩
  have hcnt := retryQuietResolve_count_le env.lookupIP dnsRetryAttempts 0
  rw [hR] at hcnt
  have hall2 := retryQuietResolve_all_none env.lookupIP
  constructor
  · unfold getDomain
    rw [hloc]
    dsimp only
    rw [if_neg (by rintro (h | h); exact hp1 h; exact hp2 h)]
    dsimp only
    rw [if_neg hp3]
    dsimp only
    rw [hnip ipRes tr2 hR]
    cases ipRes with
    | none =>
      dsimp only
      unfold finalDomain
      rw [if_pos rfl, hb]
      dsimp only [if_true]
      simp only [countDnsAttempts, if_true, List.countP_append, List.countP_nil] at hcnt ⊢
      omega
    | some ip =>
      dsimp only
      unfold finalDomain
      rw [if_pos rfl, hb]
      dsimp only [if_true]
      simp only [countDnsAttempts, if_true, List.countP_append, List.countP_nil] at hcnt ⊢
      omega
  · intro hall
    have hnone := (hall2 hall dnsRetryAttempts 0).1
    rw [hR] at hnone
    dsimp only at hnone
    unfold getDomain
    rw [hloc]
    dsimp only
    rw [if_neg (by rintro (h | h); exact hp1 h; exact hp2 h)]
    dsimp only
    rw [if_neg hp3]
    dsimp only
    rw [hnip ipRes tr2 hR, hnone]
    dsimp only
    unfold finalDomain
    rw [if_pos rfl, hb]
    rfl

theorem getDomain_dns_retry_bound_witness :
    dnsRetryAttempts = 5 * 6
    ∧ dnsRetryIntervalSeconds = 10
    ∧ countDnsAttempts
        (getDomain batchEnv hostnameLBClient "" KUBERNETES "nginx" "nginx-ingress-controller" "" false).2
        ≤ dnsRetryAttempts
    ∧ ((∀ j, firstUsableIP (batchEnv.lookupIP j) = none) →
        (getDomain batchEnv hostnameLBClient "" KUBERNETES "nginx" "nginx-ingress-controller" "" false).1
          = .ok "abc.example.com") :=
  getDomain_dns_retry_bound batchEnv hostnameLBClient KUBERNETES "nginx"
    "nginx-ingress-controller" "" "abc.example.com"
    [.getService "nginx" "nginx-ingress-controller"]
    (by decide) (by decide) (by decide) rfl (by decide) (by decide) (by decide)

theorem retryGo_ingress_ok (S : Nat → Service) (ns name : String) :
    ∀ (N fuel i : Nat) (logged : Bool), N < fuel →
      (∀ k, k < N → hasLBHost (S (i + k)) = false) →
      hasLBHost (S (i + N)) = true →
      (retryGo (ingressHostProbe (fun j => .ok (S j)) ns name) fuel (logged, i)).err = none
      ∧ (retryGo (ingressHostProbe (fun j => .ok (S j)) ns name) fuel
          (logged, i)).trace.count .logNotice
        = if logged then 0 else if N = 0 then 0 else 1 := by
  intro N
  induction N with
  | zero =>
    intro fuel i logged hfuel hfalse htrue
    cases fuel with
    | zero => omega
    | succ f =>
      rw [Nat.add_zero] at htrue
      unfold retryGo ingressHostProbe
      simp only [htrue, if_true]
      cases logged <;> simp [List.count]
  | succ M ih =>
    intro fuel i logged hfuel hfalse htrue
    cases fuel with
    | zero => omega
    | succ f =>
      have h0 : hasLBHost (S i) = false := by
        have := hfalse 0 (Nat.succ_pos M)
        rwa [Nat.add_zero] at this
      have hshift : ∀ k, k < M → hasLBHost (S ((i + 1) + k)) = false := by
        intro k hk
        have := hfalse (k + 1) (Nat.succ_lt_succ hk)
        rwa [show i + (k + 1) = (i + 1) + k by omega] at this
      have htrue2 : hasLBHost (S ((i + 1) + M)) = true := by
        rwa [show i + (M + 1) = (i + 1) + M by omega] at htrue
      have hM : M < f := Nat.lt_of_succ_lt_succ hfuel
      have hrec := ih f (i + 1) true hM hshift htrue2
      cases logged with
      | false =>
        have hp : ingressHostProbe (fun j => Except.ok (S j)) ns name (false, i)
            = ⟨false, none, (true, i + 1), [.getService ns name, .logNotice]⟩ := by
          unfold ingressHostProbe
          simp [h0]
        have hone : retryGo (ingressHostProbe (fun j => Except.ok (S j)) ns name) (f + 1)
              (false, i)
            = ⟨(retryGo (ingressHostProbe (fun j => Except.ok (S j)) ns name) f
                  (true, i + 1)).err,
               (retryGo (ingressHostProbe (fun j => Except.ok (S j)) ns name) f
                  (true, i + 1)).state,
               [Effect.getService ns name, Effect.logNotice]
                 ++ (retryGo (ingressHostProbe (fun j => Except.ok (S j)) ns name) f
                      (true, i + 1)).trace⟩ := by
          conv_lhs => unfold retryGo
          rw [hp]
          rfl
        rw [hone]
        refine ⟨hrec.1, ?_⟩
        have h2 := hrec.2
        simp only [if_pos rfl, if_true] at h2
        rw [List.count_append, h2]
        simp [List.count_cons]
      | true =>
        have hp : ingressHostProbe (fun j => Except.ok (S j)) ns name (true, i)
            = ⟨false, none, (true, i + 1), [.getService ns name]⟩ := by
          unfold ingressHostProbe
          simp [h0]
        have hone : retryGo (ingressHostProbe (fun j => Except.ok (S j)) ns name) (f + 1)
              (true, i)
            = ⟨(retryGo (ingressHostProbe (fun j => Except.ok (S j)) ns name) f
                  (true, i + 1)).err,
               (retryGo (ingressHostProbe (fun j => Except.ok (S j)) ns name) f
                  (true, i + 1)).state,
               [Effect.getService ns name]
                 ++ (retryGo (ingressHostProbe (fun j => Except.ok (S j)) ns name) f
                      (true, i + 1)).trace⟩ := by
          conv_lhs => unfold retryGo
          rw [hp]
          rfl
        rw [hone]
        refine ⟨hrec.1, ?_⟩
        have h2 := hrec.2
        simp only [if_pos rfl, if_true] at h2
        rw [List.count_append, h2]
        simp [List.count_cons]

/-- C8 (amended): a probe false for the first N polls and true on poll
N+1, with the call site's 5-minute timeout and 3-second interval and
timeout > N x interval: the wait succeeds, and the number of waiting
notices is exactly one when N ≥ 1 and zero when N = 0. -/
theorem waitForIngressControllerHost_single_notice
    (S : Nat → Service) (N : Nat) (ns name : String)
    (hns : ns ≠ "") (hname : name ≠ "")
    (hfalse : ∀ k, k < N → hasLBHost (S (k + 1)) = false)
    (htrue : hasLBHost (S (N + 1)) = true)
    (htime : 3 * N < 5 * 60) :
    (waitForIngressControllerHost (fun i => .ok (S i)) ns name).1 = .ok true
    ∧ (waitForIngressControllerHost (fun i => .ok (S i)) ns name).2.count .logNotice
      = if N = 0 then 0 else 1 := by
  have hmain := retryGo_ingress_ok S ns name N (5 * 60 / 3 + 1) 1 false
    (by omega)
    (by intro k hk; rw [Nat.add_comm 1 k]; exact hfalse k hk)
    (by rwa [Nat.add_comm 1 N])
  unfold waitForIngressControllerHost retryUntilTrueOrTimeout
  rw [if_neg (by rintro (h | h); exact hname h; exact hns h)]
  dsimp only
  rcases hG : retryGo (ingressHostProbe (fun j => .ok (S j)) ns name) (5 * 60 / 3 + 1)
      (false, 1) with ⟨err, st, trace⟩
  rw [hG] at hmain
  dsimp only at hmain
  rw [hmain.1]
  dsimp only
  refine ⟨rfl, ?_⟩
  have h2 := hmain.2
  simp only [Bool.false_eq_true, if_false] at h2
  rw [List.count_cons_of_ne (by simp)]
  exact h2

theorem waitForIngressControllerHost_single_notice_witness :
    (waitForIngressControllerHost
        (fun i => .ok (if i ≥ 4 then gkeLBService else emptyLBService))
        "nginx" "nginx-ingress-controller").1 = .ok true
    ∧ (waitForIngressControllerHost
        (fun i => .ok (if i ≥ 4 then gkeLBService else emptyLBService))
        "nginx" "nginx-ingress-controller").2.count .logNotice
      = if 3 = 0 then 0 else 1 :=
  waitForIngressControllerHost_single_notice
    (fun i => if i ≥ 4 then gkeLBService else emptyLBService) 3
    "nginx" "nginx-ingress-controller"
    (by decide) (by decide)
    (by intro k hk
        have : ¬(k + 1 ≥ 4) := by omega
        simp [this]
        decide)
    (by decide) (by decide)

theorem defaultRegistry_frame (client : Client) (req : RequirementsConfig) :
    (defaultRegistry client req).2.1.ingress = req.ingress
    ∧ (defaultRegistry client req).2.1.cluster.provider = req.cluster.provider
    ∧ (defaultRegistry client req).2.1.cluster.other = req.cluster.other
    ∧ (defaultRegistry client req).2.1.other = req.other
    ∧ ((defaultRegistry client req).2.1.cluster.namespc = req.cluster.namespc
       ∨ (req.cluster.namespc = ""
          ∧ (defaultRegistry client req).2.1.cluster.namespc = "jx")) := by
  unfold defaultRegistry
  by_cases h1 : req.cluster.provider = KUBERNETES ∧ req.cluster.registry = ""
  · rw [if_pos h1]
    by_cases hn : req.cluster.namespc = ""
    · rw [if_pos hn]
      dsimp only
      cases hs : client.getService "jx" "docker-registry" with
      | error err => cases err <;> simp [hn]
      | ok svc => by_cases hc : svc.clusterIP ≠ "" <;> simp [hc, hn]
    · rw [if_neg hn]
      dsimp only
      cases hs : client.getService req.cluster.namespc "docker-registry" with
      | error err => cases err <;> simp
      | ok svc => by_cases hc : svc.clusterIP ≠ "" <;> simp [hc]
  · rw [if_neg h1]
    simp

/-- C9 (amended): a successful discovery modifies only `ingress.domain`,
`cluster.registry`, and — when defaulting the registry on the plain
kubernetes provider — `cluster.namespace` from empty to `jx`; every other
requirements field is unchanged. -/
theorem discoverIngressDomain_frame
    (env : Env) (client : Client) (svcAt : Nat → Except Err Service)
    (o : VerifyOptions) (req : RequirementsConfig) (apps : List String)
    (req2 : RequirementsConfig) (tr : List Effect)
    (h : discoverIngressDomain env client svcAt o req apps = (.ok (), req2, tr)) :
    req2.ingress.namespc = req.ingress.namespc
    ∧ req2.ingress.service = req.ingress.service
    ∧ req2.ingress.serviceType = req.ingress.serviceType
    ∧ req2.ingress.externalIP = req.ingress.externalIP
    ∧ req2.ingress.kind = req.ingress.kind
    ∧ req2.ingress.other = req.ingress.other
    ∧ req2.cluster.provider = req.cluster.provider
    ∧ req2.cluster.other = req.cluster.other
    ∧ req2.other = req.other
    ∧ (req2.cluster.namespc = req.cluster.namespc
       ∨ (req.cluster.namespc = "" ∧ req2.cluster.namespc = "jx")) := by
  unfold discoverIngressDomain at h
  by_cases h0 : req.ingress.domain ≠ ""
  · rw [if_pos h0] at h
    simp only [Prod.mk.injEq] at h
    obtain ⟨-, h2, -⟩ := h
    subst h2
    simp
  · rw [if_neg h0] at h
    dsimp only at h
    rcases hgd : getDomain env client ""
        (if o.provider = "" then req.cluster.provider else o.provider)
        (if (if o.ingressNamespace = "" then req.ingress.namespc else o.ingressNamespace) = ""
         then (findDefaultIngressValues req apps).namespc
         else if o.ingressNamespace = "" then req.ingress.namespc else o.ingressNamespace)
        (if (if o.ingressService = "" then req.ingress.service else o.ingressService) = ""
         then (findDefaultIngressValues req apps).service
         else if o.ingressService = "" then req.ingress.service else o.ingressService)
        req.ingress.externalIP
        (decide (req.ingress.serviceType = ServiceTypeNodePort)) with ⟨gres, gtr⟩
    rw [hgd] at h
    cases gres with
    | error e => simp at h
    | ok d =>
      dsimp only at h
      by_cases hd : d = ""
      · rw [if_pos hd] at h
        rcases hw : waitForIngressControllerHost svcAt
            (if (if o.ingressNamespace = "" then req.ingress.namespc else o.ingressNamespace) = ""
             then (findDefaultIngressValues req apps).namespc
             else if o.ingressNamespace = "" then req.ingress.namespc else o.ingressNamespace)
            (if (if o.ingressService = "" then req.ingress.service else o.ingressService) = ""
             then (findDefaultIngressValues req apps).service
             else if o.ingressService = "" then req.ingress.service else o.ingressService)
          with ⟨wres, wtr⟩
        rw [hw] at h
        cases wres with
        | error e => simp at h
        | ok hasHost =>
          cases hasHost with
          | true =>
            dsimp only at h
            rw [if_pos hd] at h
            simp at h
          | false =>
            dsimp only at h
            rw [if_pos hd] at h
            simp at h
      · rw [if_neg hd] at h
        dsimp only at h
        rw [if_neg hd] at h
        rcases hreg : defaultRegistry client
            { req with ingress := { req.ingress with domain := d } }
          with ⟨regErr, reqX, tr3⟩
        rw [hreg] at h
        cases regErr with
        | some e => simp at h
        | none =>
          cases hsave : env.saveResult with
          | some e => rw [hsave] at h; simp at h
          | none =>
            rw [hsave] at h
            simp only [Prod.mk.injEq] at h
            obtain ⟨-, h2, -⟩ := h
            subst h2
            have frame := defaultRegistry_frame client
              { req with ingress := { req.ingress with domain := d } }
            rw [hreg] at frame
            dsimp only at frame
            obtain ⟨f1, f2, f3, f4, f5⟩ := frame
            refine ⟨?_, ?_, ?_, ?_, ?_, ?_, ?_, ?_, ?_, ?_⟩ <;> simp_all

theorem discoverIngressDomain_frame_witness :
    (discoverIngressDomain batchEnv discoverClient hostReadySeq noFlags
        blankRequirements []).2.1.cluster.provider
      = blankRequirements.cluster.provider
    ∧ (discoverIngressDomain batchEnv discoverClient hostReadySeq noFlags
        blankRequirements []).2.1.other
      = blankRequirements.other := by
  have h1 : (discoverIngressDomain batchEnv discoverClient hostReadySeq noFlags
      blankRequirements []).1 = .ok () := by decide
  have h : discoverIngressDomain batchEnv discoverClient hostReadySeq noFlags blankRequirements []
      = (.ok (),
         (discoverIngressDomain batchEnv discoverClient hostReadySeq noFlags
            blankRequirements []).2.1,
         (discoverIngressDomain batchEnv discoverClient hostReadySeq noFlags
            blankRequirements []).2.2) := by
    rw [← h1]
  have frame := discoverIngressDomain_frame batchEnv discoverClient hostReadySeq noFlags
    blankRequirements [] _ _ h
  exact ⟨frame.2.2.2.2.2.2.1, frame.2.2.2.2.2.2.2.2.1⟩
